import Mathlib

/-!
Verification of the chunking and streaming-assembly pipeline of the
`tts-generator` repository.

The definitions below are shallow embeddings of the Python sources:
  * `src/tts_generator/parser.py`    — the `DialogueLine` record;
  * `src/tts_generator/chunker.py`   — `is_chapter_marker`, `TextChunker.chunk`;
  * `src/tts_generator/providers/google_tts.py` and `elevenlabs.py`
      — payload validation and `retry_with_backoff`;
  * `src/tts_generator/streaming.py` — `StreamingGenerator.generate`,
      `_append_audio`, `_save_state`.

Machine-independent conventions: Python strings are Lean `String`s and byte
counts use `String.utf8ByteSize`; Python regex character classes are modelled
at ASCII fidelity (`\s`, `\d`, `\w` restricted to their ASCII fragments);
Python sets of speaker names are modelled as duplicate-free lists in first
insertion order (only membership and cardinality are ever observed).
-/

/-! ### Data model (`parser.py`) -/

/-- A single line of dialogue (`DialogueLine` in `parser.py`). -/
structure DialogueLine where
  speaker : String
  text : String
deriving Repr, DecidableEq

/-! ### Chapter-marker detection (`chunker.py`, `CHAPTER_PATTERNS` and
`is_chapter_marker`) -/

/-- ASCII fragment of the Python regex class `\s` (also the characters
stripped by `str.strip()`). -/
def isPySpace (c : Char) : Bool :=
  c == ' ' || c == '\t' || c == '\n' || c == '\r' || c == '\x0b' || c == '\x0c'

/-- Python `str.strip()`: remove leading and trailing whitespace. -/
def pyStrip (s : String) : String :=
  String.mk (((s.data.dropWhile isPySpace).reverse.dropWhile isPySpace).reverse)

/-- Match a lowercase pattern against the input case-insensitively
(the effect of `re.IGNORECASE` on a literal keyword); return the remainder
of the input on success. -/
def matchCaseless : List Char → List Char → Option (List Char)
  | [], rest => some rest
  | _ :: _, [] => none
  | p :: ps, c :: cs => if c.toLower = p then matchCaseless ps cs else none

/-- The keyword alternation `(chapter|part|section)` of the first two
chapter patterns.  The three keywords start with distinct letters, so
trying them in the regex's order commits to the unique possible branch. -/
def matchKeyword (cs : List Char) : Option (List Char) :=
  match matchCaseless "chapter".data cs with
  | some r => some r
  | none =>
    match matchCaseless "part".data cs with
    | some r => some r
    | none => matchCaseless "section".data cs

/-- One of the characters of the class `[ivxlcdm]` under `re.IGNORECASE`. -/
def isRomanChar (c : Char) : Bool :=
  let d := c.toLower
  d == 'i' || d == 'v' || d == 'x' || d == 'l' || d == 'c' || d == 'd' || d == 'm'

/-- ASCII fragment of the Python regex class `\w`. -/
def isWordChar (c : Char) : Bool := c.isAlphanum || c == '_'

/-- `\s+` at the start of the remainder: require at least one whitespace
character, then consume the whole whitespace run (the classes that follow
`\s+` in the patterns are disjoint from whitespace, so greedy consumption
is equivalent to the regex's backtracking). -/
def afterSpaces1 (cs : List Char) : Option (List Char) :=
  match cs with
  | [] => none
  | c :: rest => if isPySpace c then some (rest.dropWhile isPySpace) else none

/-- Pattern `^(chapter|part|section)\s+(\d+|[ivxlcdm]+)` (IGNORECASE):
as a prefix match it only requires the first character after the
whitespace run to be a digit or a roman-numeral letter. -/
def patKeywordNumeral (cs : List Char) : Bool :=
  match matchKeyword cs with
  | none => false
  | some rest =>
    match afterSpaces1 rest with
    | none => false
    | some r2 =>
      match r2 with
      | [] => false
      | c :: _ => c.isDigit || isRomanChar c

/-- Pattern `^(chapter|part|section)\s+\w+:` (IGNORECASE): after the
whitespace run, a nonempty run of word characters immediately followed by
a colon (`:` is not a word character, so the maximal run is the only
candidate the regex can use). -/
def patKeywordWordColon (cs : List Char) : Bool :=
  match matchKeyword cs with
  | none => false
  | some rest =>
    match afterSpaces1 rest with
    | none => false
    | some r2 =>
      match r2 with
      | [] => false
      | c :: _ =>
        isWordChar c &&
          (match r2.dropWhile isWordChar with
           | ':' :: _ => true
           | _ => false)

/-- Pattern `^#{1,3}\s+`: between one and three leading `#` characters
followed by a whitespace character.  (If four or more `#` follow, every
choice of 1–3 of them leaves a `#`, not whitespace, so the regex fails.) -/
def patMarkdownHeading (cs : List Char) : Bool :=
  let n := (cs.takeWhile (fun c => c == '#')).length
  let rest := cs.dropWhile (fun c => c == '#')
  decide (1 ≤ n) && decide (n ≤ 3) &&
    (match rest with
     | c :: _ => isPySpace c
     | [] => false)

/-- One of the characters of the class `[*\-=]`. -/
def isDividerChar (c : Char) : Bool := c == '*' || c == '-' || c == '='

/-- Pattern `^[*\-=]{3,}$`: the whole (stripped) line consists of at least
three characters drawn from `*`, `-`, `=`. -/
def patDivider (cs : List Char) : Bool :=
  decide (3 ≤ cs.length) && cs.all isDividerChar

/-- Disjunction of the four `CHAPTER_PATTERNS`, in source order. -/
def chapterPatternsMatch (cs : List Char) : Bool :=
  patKeywordNumeral cs || patKeywordWordColon cs || patMarkdownHeading cs ||
    patDivider cs

/-- `is_chapter_marker` from `chunker.py`: strip the text, return
`(True, stripped)` if any pattern matches, else `(False, None)`. -/
def is_chapter_marker (text : String) : Bool × Option String :=
  let t := pyStrip text
  if chapterPatternsMatch t.data then (true, some t) else (false, none)

/-- The chapter-marker predicate exactly as the specification claim words
it: keyword followed by a number or roman numeral, or a markdown heading
of 1–3 `#` then whitespace, or a divider of three or more `*`/`-`/`=`
characters, on the trimmed text — with no further alternative. -/
def claimChapterMarker (text : String) : Bool :=
  let cs := (pyStrip text).data
  patKeywordNumeral cs || patMarkdownHeading cs || patDivider cs

/-! ### The chunker (`chunker.py`, `TextChunker.chunk`) -/

/-- A chunk of dialogue (`Chunk` in `chunker.py`).  `speakers` holds the
distinct speakers of `lines` (Python materialises a `set` into a list;
here the list is duplicate-free in first-appearance order). -/
structure Chunk where
  index : Nat
  lines : List DialogueLine
  speakers : List String
  is_chapter_start : Bool
  chapter_title : Option String
deriving Repr, DecidableEq

/-- The two `TextChunker` parameters the chunking loop reads
(`chapter_pause_ms` is not consulted by `chunk`). -/
structure ChunkerConfig where
  max_bytes : Nat
  max_speakers : Nat
deriving Repr, DecidableEq

/-- `line_size` at chunker.py:92 — UTF-8 bytes of text plus speaker
plus a 2-byte separator allowance. -/
def lineSize (l : DialogueLine) : Nat :=
  l.text.utf8ByteSize + l.speaker.utf8ByteSize + 2

/-- Serialized size of a list of lines, as accumulated in `current_size`. -/
def linesSize (ls : List DialogueLine) : Nat := (ls.map lineSize).sum

/-- Serialized size of a chunk's lines. -/
def chunkBytes (c : Chunk) : Nat := linesSize c.lines

/-- The loop state of `TextChunker.chunk`: emitted chunks plus the
accumulating buffer. -/
structure ChunkerState where
  chunks : List Chunk
  current_lines : List DialogueLine
  current_speakers : List String
  current_size : Nat
  chunk_index : Nat
  current_is_chapter_start : Bool
  current_chapter_title : Option String
deriving Repr, DecidableEq

/-- The initial loop state. -/
def chunkerInit : ChunkerState :=
  ⟨[], [], [], 0, 0, false, none⟩

/-- Flush the accumulating buffer into an emitted chunk and reset it
(chunker.py:108–122). -/
def flushChunk (st : ChunkerState) : ChunkerState :=
  { chunks := st.chunks ++
      [⟨st.chunk_index, st.current_lines, st.current_speakers,
        st.current_is_chapter_start, st.current_chapter_title⟩],
    current_lines := [],
    current_speakers := [],
    current_size := 0,
    chunk_index := st.chunk_index + 1,
    current_is_chapter_start := false,
    current_chapter_title := none }

/-- The `needs_new_chunk` decision (chunker.py:98–105).  The Python
`elif` chain sets a single boolean, so it is the disjunction of its three
conditions: chapter marker on a nonempty buffer; a speaker not yet in the
buffer while the buffer already holds at least `max_speakers` distinct
speakers; or the byte ceiling crossed on a nonempty buffer. -/
def needsNewChunk (cfg : ChunkerConfig) (st : ChunkerState)
    (line : DialogueLine) : Prop :=
  ((is_chapter_marker line.text).1 = true ∧ st.current_lines ≠ []) ∨
  (st.current_speakers.contains line.speaker = false ∧
    cfg.max_speakers ≤ st.current_speakers.length) ∨
  (cfg.max_bytes < st.current_size + lineSize line ∧ st.current_lines ≠ [])

instance (cfg : ChunkerConfig) (st : ChunkerState) (line : DialogueLine) :
    Decidable (needsNewChunk cfg st line) := by
  unfold needsNewChunk; infer_instance

/-- Append the line to the buffer (chunker.py:124–127): extend
`current_lines`, add the speaker to the speaker set if absent, add the
line's serialized size. -/
def addLine (st : ChunkerState) (line : DialogueLine) : ChunkerState :=
  { st with
    current_lines := st.current_lines ++ [line],
    current_speakers :=
      if st.current_speakers.contains line.speaker then st.current_speakers
      else st.current_speakers ++ [line.speaker],
    current_size := st.current_size + lineSize line }

/-- Mark the buffer as a chapter start when its (just-appended) line is
its first line and is a chapter marker (chunker.py:129–132). -/
def markChapter (st : ChunkerState) (chap : Bool × Option String) :
    ChunkerState :=
  if chap.1 = true ∧ st.current_lines.length = 1 then
    { st with
      current_is_chapter_start := true,
      current_chapter_title := chap.2 }
  else st

/-- One iteration of the `for line in lines` loop (chunker.py:91–132):
flush the buffer if a new chunk is needed, then append the line and
update the chapter-start marking. -/
def chunkStep (cfg : ChunkerConfig) (st : ChunkerState) (line : DialogueLine) :
    ChunkerState :=
  let st1 := if needsNewChunk cfg st line then flushChunk st else st
  markChapter (addLine st1 line) (is_chapter_marker line.text)

/-- `TextChunker.chunk` (chunker.py:70–144): fold the loop over the input
and append the final nonempty buffer as a last chunk. -/
def TextChunker.chunk (cfg : ChunkerConfig) (lines : List DialogueLine) :
    List Chunk :=
  if lines = [] then []
  else
    let st := lines.foldl (chunkStep cfg) chunkerInit
    if st.current_lines = [] then st.chunks
    else st.chunks ++
      [⟨st.chunk_index, st.current_lines, st.current_speakers,
        st.current_is_chapter_start, st.current_chapter_title⟩]

/-- Concatenation of the lines of a list of chunks, in order. -/
def joinLines (cs : List Chunk) : List DialogueLine :=
  (cs.map Chunk.lines).flatten

/-- The three dialogue lines and byte ceiling of the specification's worked
segmenter example: three 100-byte texts by one speaker with
`max_bytes = 150` (and the default `max_speakers_per_chunk = 2`). -/
def exampleLines : List DialogueLine :=
  [⟨"A", String.mk (List.replicate 100 'x')⟩,
   ⟨"A", String.mk (List.replicate 100 'y')⟩,
   ⟨"A", String.mk (List.replicate 100 'z')⟩]

/-- A small concrete configuration for evaluating the chunker theorems:
a 10-byte ceiling and the default speaker ceiling of 2. -/
def wcfg : ChunkerConfig := ⟨10, 2⟩

/-- A small concrete input with one oversized line (28 serialized bytes
against the 10-byte ceiling of `wcfg`) followed by a short line. -/
def witnessLines : List DialogueLine :=
  [⟨"A", "this line is way too long"⟩, ⟨"B", "hi"⟩]

/-! ### Providers (`providers/google_tts.py`, `providers/elevenlabs.py`)

The observable modelled here is what a `generate_*` call does before and
at the external boundary: which validation error it raises, or that it
dispatches a network request (and with how many content bytes).  The raw
audio coming back is outside the modelled behaviour. -/

/-- Outcome of a `generate_single_speaker` / `generate_multi_speaker`
call, up to the point where the request leaves the process. -/
inductive DispatchOutcome where
  /-- `ValueError("Dialogue list cannot be empty")`. -/
  | emptyDialogueError
  /-- `ValueError("Google TTS supports max 2 speakers per call, ...")`. -/
  | tooManySpeakersError (n : Nat)
  /-- `ValueError("Text too long ...")`, raised before any network call. -/
  | rejectedTooLarge
  /-- The request was dispatched to the remote API with this many
  UTF-8 content bytes. -/
  | networkCall (contentBytes : Nat)
deriving Repr, DecidableEq

/-- `GoogleTTSProvider.max_text_length()` (google_tts.py:254–256). -/
def googleMaxTextLength : Nat := 4000

/-- `ElevenLabsProvider.max_text_length()` (elevenlabs.py:113–115). -/
def elevenLabsMaxTextLength : Nat := 5000

/-- `GoogleTTSProvider.generate_single_speaker` (google_tts.py:71–96):
validate the UTF-8 byte length of `text` against `max_text_length()`
before building the content and dispatching the API call. -/
def googleGenerateSingleSpeaker (text : String) (style_prompt : Option String) :
    DispatchOutcome :=
  if googleMaxTextLength < text.utf8ByteSize then .rejectedTooLarge
  else
    let content :=
      match style_prompt with
      | some sp => sp ++ "\n\nTTS this: " ++ text
      | none => "TTS this: " ++ text
    .networkCall content.utf8ByteSize

/-- The deduplicated speakers of a dialogue in first-appearance order
(the `speakers` dict built at google_tts.py:156–159). -/
def distinctSpeakers (dialogue : List (String × String × String)) :
    List String :=
  dialogue.foldl (fun acc t => if acc.contains t.1 then acc else acc ++ [t.1]) []

/-- The `"\n"`-joined `speaker: text` transcript built at
google_tts.py:167–172. -/
def dialogueText (dialogue : List (String × String × String)) : String :=
  String.intercalate "\n" (dialogue.map (fun t => t.1 ++ ": " ++ t.2.2))

/-- `GoogleTTSProvider.generate_multi_speaker` (google_tts.py:146–205):
reject empty dialogue, reject more than two distinct speakers, validate
the transcript's UTF-8 byte length before dispatching. -/
def googleGenerateMultiSpeaker (dialogue : List (String × String × String))
    (style_prompt : Option String) : DispatchOutcome :=
  if dialogue = [] then .emptyDialogueError
  else if 2 < (distinctSpeakers dialogue).length then
    .tooManySpeakersError (distinctSpeakers dialogue).length
  else if googleMaxTextLength < (dialogueText dialogue).utf8ByteSize then
    .rejectedTooLarge
  else
    let content :=
      match style_prompt with
      | some sp => sp ++ "\n\nTTS the following conversation:\n" ++ dialogueText dialogue
      | none => "TTS the following conversation:\n" ++ dialogueText dialogue
    .networkCall content.utf8ByteSize

/-- `ElevenLabsProvider.generate_single_speaker` (elevenlabs.py:52–81):
no payload-size validation of any kind — `client.text_to_speech.convert`
is invoked unconditionally. -/
def elevenLabsGenerateSingleSpeaker (text : String)
    (style_prompt : Option String) : DispatchOutcome :=
  let content :=
    match style_prompt with
    | some sp => "[" ++ sp ++ "] " ++ text
    | none => text
  .networkCall content.utf8ByteSize

/-- `ElevenLabsProvider.generate_multi_speaker` (elevenlabs.py:83–107):
reject empty dialogue, otherwise one unvalidated single-speaker dispatch
per line. -/
def elevenLabsGenerateMultiSpeaker (dialogue : List (String × String × String))
    (style_prompt : Option String) : List DispatchOutcome :=
  if dialogue = [] then [.emptyDialogueError]
  else dialogue.map (fun t => elevenLabsGenerateSingleSpeaker t.2.2 style_prompt)

/-- A 5001-byte ASCII text, one byte over the ElevenLabs declared
maximum. -/
def bigText5001 : String := String.mk (List.replicate 5001 'a')

/-- A 4001-byte ASCII text, one byte over the Google declared maximum. -/
def bigText4001 : String := String.mk (List.replicate 4001 'a')

/-- A one-line dialogue whose transcript exceeds Google's declared
maximum text length. -/
def wDialogue : List (String × String × String) :=
  [("A", "Kore", bigText4001)]

/-! ### The retry wrapper (`google_tts.py`, `retry_with_backoff`) -/

/-- Semantic classification of an exception raised by the wrapped API
call.  The Python wrapper catches bare `Exception`, so it never inspects
which of these it caught. -/
inductive ApiError where
  | network
  | rateLimit
  | auth
  | badPayload
  | malformedResponse
deriving Repr, DecidableEq

/-- The sleep before retry number `attempt + 1`
(google_tts.py:34): `min(base_delay * (2 ** attempt), max_delay)`,
in whole seconds (the defaults are integral). -/
def backoffDelay (base_delay max_delay attempt : Nat) : Nat :=
  min (base_delay * 2 ^ attempt) max_delay

/-- The `for attempt in range(max_retries + 1)` loop of
`retry_with_backoff` (google_tts.py:26–38).  `f n` is the outcome of the
n-th invocation of the wrapped call; the result is the number of
invocations made, the list of sleeps taken, and the final outcome (the
last exception is re-raised when attempts are exhausted). -/
def retryLoop (f : Nat → Except ApiError α) (base_delay max_delay : Nat) :
    Nat → Nat → Nat × List Nat × Except ApiError α
  | attempt, 0 => (1, [], f attempt)
  | attempt, remaining + 1 =>
    match f attempt with
    | .ok a => (1, [], .ok a)
    | .error _ =>
      let rest := retryLoop f base_delay max_delay (attempt + 1) remaining
      (rest.1 + 1, backoffDelay base_delay max_delay attempt :: rest.2.1,
        rest.2.2)

/-- `retry_with_backoff(max_retries, base_delay, max_delay)` applied to a
call `f` (google_tts.py:16–40; used with `max_retries=3, base_delay=1.0,
max_delay=30.0` at google_tts.py:98). -/
def retry_with_backoff (max_retries base_delay max_delay : Nat)
    (f : Nat → Except ApiError α) : Nat × List Nat × Except ApiError α :=
  retryLoop f base_delay max_delay 0 max_retries

/-- A wrapped call that fails with the same exception on every attempt. -/
def constFail (e : ApiError) : Nat → Except ApiError Unit :=
  fun _ => .error e

/-! ### Streaming generation (`streaming.py`) -/

/-- The persisted resume state (`_save_state`, streaming.py:260–272;
the fields not consulted on resume are omitted). -/
structure Checkpoint where
  completed_chunks : Nat
  total_chunks : Nat
deriving Repr, DecidableEq

/-- The world a `StreamingGenerator` run reads and writes: the output
audio file (`none` = absent; audio is a sequence of 16-bit samples), the
checkpoint file, the in-memory stats, and two traces — the provider
synthesis calls made and the checkpoint writes performed. -/
structure GenState where
  output : Option (List Int)
  checkpoint : Option Checkpoint
  statsCompleted : Nat
  statsDurationMs : Nat
  errors : List (Nat × String)
  synthCalls : List Nat
  saves : List Checkpoint
deriving Repr, DecidableEq

/-- A `GenState` with no files on disk and empty stats. -/
def genInit : GenState :=
  ⟨none, none, 0, 0, [], [], []⟩

/-- `_append_audio` (streaming.py:216–258) at the file level: the first
append creates the file with the buffer as content; every later append
loads the ENTIRE existing file (`AudioSegment.from_wav`), concatenates
the new audio, and re-exports the whole combined file.  The crossfade
blending at the join is abstracted to plain concatenation (the DSP
content of the overlap does not matter here); the second component
counts the samples read back from disk by this append. -/
def appendAudioFile (existing : Option (List Int)) (audio : List Int) :
    List Int × Nat :=
  match existing with
  | none => (audio, 0)
  | some ex => (ex ++ audio, ex.length)

/-- Iterate `_append_audio` over a run of per-segment buffers, collecting
the per-append read-back counts. -/
def appendRun (buffers : List (List Int)) : Option (List Int) × List Nat :=
  buffers.foldl
    (fun acc a =>
      let r := appendAudioFile acc.1 a
      (some r.1, acc.2 ++ [r.2]))
    (none, [])

/-- Effect of `self._append_audio(audio, ...)` on the run state. -/
def appendAudio (st : GenState) (audio : List Int) : GenState :=
  { st with output := some (appendAudioFile st.output audio).1 }

/-- `_save_state(completed, total)` (streaming.py:260–272): write the
checkpoint file and record the write in the trace. -/
def saveState (st : GenState) (completed total : Nat) : GenState :=
  { st with
    checkpoint := some ⟨completed, total⟩,
    saves := st.saves ++ [⟨completed, total⟩] }

/-- `AudioSegment.silent(duration=ms)`: `ms` milliseconds of silence
(modelled at one sample per millisecond). -/
def silenceMs (ms : Nat) : List Int := List.replicate ms 0

/-- One iteration of the generation loop (streaming.py:144–187) on chunk
`c` at absolute index `i`: invoke synthesis; on failure, record the error
with the chunk index, force a checkpoint write with `completed = i`, and
propagate (the `.error` carries the state after those writes); on
success, prepend the inter-chunk pause (chapter pause when the chunk
starts a chapter) for every chunk but the first, append to the output
file, update the stats, and checkpoint when the interval divides `i + 1`
or this is the last chunk. -/
def generateStep (synth : Chunk → Except String (List Int))
    (pause_ms chapter_pause_ms state_save_interval total : Nat)
    (st : GenState) (i : Nat) (c : Chunk) : Except GenState GenState :=
  let st0 := { st with synthCalls := st.synthCalls ++ [i] }
  match synth c with
  | .error msg =>
    .error (saveState { st0 with errors := st0.errors ++ [(i, msg)] } i total)
  | .ok audio =>
    let audio :=
      if 0 < i then
        silenceMs (if c.is_chapter_start then chapter_pause_ms else pause_ms)
          ++ audio
      else audio
    let st1 := appendAudio st0 audio
    let st2 := { st1 with
      statsCompleted := i + 1,
      statsDurationMs := st1.statsDurationMs + audio.length }
    if (i + 1) % state_save_interval = 0 ∨ i + 1 = total then
      .ok (saveState st2 (i + 1) total)
    else .ok st2

/-- The `for i, chunk in enumerate(chunks[start_idx:], start=start_idx)`
loop of `generate`. -/
def generateLoop (synth : Chunk → Except String (List Int))
    (pause_ms chapter_pause_ms state_save_interval total : Nat) :
    GenState → List (Nat × Chunk) → Except GenState GenState
  | st, [] => .ok st
  | st, (i, c) :: rest =>
    match generateStep synth pause_ms chapter_pause_ms state_save_interval
        total st i c with
    | .error st2 => .error st2
    | .ok st2 =>
      generateLoop synth pause_ms chapter_pause_ms state_save_interval total
        st2 rest

/-- Result of a `StreamingGenerator.generate` run. -/
inductive GenResult where
  /-- All chunks processed; the state file was removed
  (`_cleanup_state`) and the output path returned. -/
  | completed (st : GenState)
  /-- `ValueError("No chunks provided")`. -/
  | noChunksError
  /-- An exception propagated out of the loop, leaving this state. -/
  | failed (st : GenState)
deriving Repr, DecidableEq

/-- The `start_idx` initialization of `generate` (streaming.py:130–135):
`state.get("completed_chunks", 0)` when resume was requested and a
checkpoint file exists, else `0`. -/
def resumeStart (resume : Bool) (st0 : GenState) : Nat :=
  if resume = true ∧ st0.checkpoint.isSome then
    (st0.checkpoint.getD ⟨0, 0⟩).completed_chunks
  else 0

/-- The on-disk state `generate` starts its loop from
(streaming.py:136–139): unchanged on a resumed run; on a fresh start any
pre-existing output file is unlinked. -/
def initialState (resume : Bool) (st0 : GenState) : GenState :=
  if resume = true ∧ st0.checkpoint.isSome then st0
  else { st0 with output := none }

/-- `StreamingGenerator.generate` (streaming.py:111–192): on resume with
an existing checkpoint, continue from `completed_chunks`; otherwise start
fresh, deleting any pre-existing output file; run the loop; on success
delete the checkpoint file. -/
def StreamingGenerator.generate (synth : Chunk → Except String (List Int))
    (pause_ms chapter_pause_ms state_save_interval : Nat)
    (chunks : List Chunk) (resume : Bool) (st0 : GenState) : GenResult :=
  if chunks = [] then .noChunksError
  else
    match generateLoop synth pause_ms chapter_pause_ms state_save_interval
        chunks.length (initialState resume st0)
        ((chunks.drop (resumeStart resume st0)).enumFrom
          (resumeStart resume st0)) with
    | .error st2 => .failed st2
    | .ok st2 => .completed { st2 with checkpoint := none }

/-- The audio content of the output file (empty when absent). -/
def outputData (st : GenState) : List Int := st.output.getD []

/-- Two single-line chunks, for concrete generation scenarios. -/
def chunks9 : List Chunk :=
  [⟨0, [⟨"A", "a"⟩], ["A"], false, none⟩,
   ⟨1, [⟨"A", "b"⟩], ["A"], false, none⟩]

/-- A synthesis stub that always returns the one-sample buffer `[7]`. -/
def synth9 : Chunk → Except String (List Int) := fun _ => .ok [7]

/-- A synthesis stub that fails on the chunk with index 1 and returns
`[1]` elsewhere. -/
def synth8 : Chunk → Except String (List Int) :=
  fun c => if c.index = 1 then .error "boom" else .ok [1]

/-- A run state as left by an interrupted earlier run: output on disk,
checkpoint recording 1 of 2 chunks completed. -/
def st9 : GenState :=
  ⟨some [9], some ⟨1, 2⟩, 1, 1, [], [0], [⟨1, 2⟩]⟩

/-- The final state of resuming that run with `synth9`, pauses of 2 ms
and 3 ms, and save interval 5: only chunk 1 is synthesized, its
2-sample pause plus 1-sample audio extend the file, and the last
checkpoint write records 2 of 2 before `_cleanup_state` removes it. -/
def stF9 : GenState :=
  ⟨some [9, 0, 0, 7], none, 2, 4, [], [0, 1], [⟨1, 2⟩, ⟨2, 2⟩]⟩

/-- The state in which a fresh run of `chunks9` under `synth8` fails:
chunk 0 appended, then the chunk-1 exception is logged and a checkpoint
recording 1 completed chunk is force-written before propagation. -/
def stF8 : GenState :=
  ⟨some [1], some ⟨1, 2⟩, 1, 1, [(1, "boom")], [0, 1], [⟨1, 2⟩]⟩

/-- 101 one-sample audio buffers, for iterating `_append_audio`. -/
def oneSampleBuffers : List (List Int) := List.replicate 101 [0]

/-! ### Chunker invariants -/

/-- Loop invariant of `TextChunker.chunk`: bookkeeping of indices, the
per-chunk guarantees for already-emitted chunks, and the corresponding
facts about the accumulating buffer. -/
structure ChunkerInv (cfg : ChunkerConfig) (st : ChunkerState) : Prop where
  idx_eq : st.chunk_index = st.chunks.length
  indices : st.chunks.map Chunk.index = List.range st.chunks.length
  emitted_nonempty : ∀ c ∈ st.chunks, c.lines ≠ []
  emitted_size : ∀ c ∈ st.chunks, 2 ≤ c.lines.length → chunkBytes c ≤ cfg.max_bytes
  emitted_spk_nonempty : ∀ c ∈ st.chunks, c.speakers ≠ []
  emitted_spk_card : ∀ c ∈ st.chunks, c.speakers.length ≤ cfg.max_speakers
  emitted_spk_nodup : ∀ c ∈ st.chunks, c.speakers.Nodup
  size_eq : st.current_size = linesSize st.current_lines
  buf_size : 2 ≤ st.current_lines.length → st.current_size ≤ cfg.max_bytes
  buf_spk_empty_iff : st.current_speakers = [] ↔ st.current_lines = []
  buf_spk_card : st.current_speakers.length ≤ cfg.max_speakers
  buf_spk_nodup : st.current_speakers.Nodup

theorem markChapter_chunks (st : ChunkerState) (ch : Bool × Option String) :
    (markChapter st ch).chunks = st.chunks := by
  unfold markChapter; split <;> rfl

theorem markChapter_current_lines (st : ChunkerState) (ch : Bool × Option String) :
    (markChapter st ch).current_lines = st.current_lines := by
  unfold markChapter; split <;> rfl

theorem markChapter_current_speakers (st : ChunkerState) (ch : Bool × Option String) :
    (markChapter st ch).current_speakers = st.current_speakers := by
  unfold markChapter; split <;> rfl

theorem markChapter_current_size (st : ChunkerState) (ch : Bool × Option String) :
    (markChapter st ch).current_size = st.current_size := by
  unfold markChapter; split <;> rfl

theorem markChapter_chunk_index (st : ChunkerState) (ch : Bool × Option String) :
    (markChapter st ch).chunk_index = st.chunk_index := by
  unfold markChapter; split <;> rfl

theorem inv_markChapter (cfg : ChunkerConfig) (st : ChunkerState)
    (ch : Bool × Option String) (h : ChunkerInv cfg st) :
    ChunkerInv cfg (markChapter st ch) := by
  constructor <;>
    simp only [markChapter_chunks, markChapter_current_lines,
      markChapter_current_speakers, markChapter_current_size,
      markChapter_chunk_index]
  · exact h.idx_eq
  · exact h.indices
  · exact h.emitted_nonempty
  · exact h.emitted_size
  · exact h.emitted_spk_nonempty
  · exact h.emitted_spk_card
  · exact h.emitted_spk_nodup
  · exact h.size_eq
  · exact h.buf_size
  · exact h.buf_spk_empty_iff
  · exact h.buf_spk_card
  · exact h.buf_spk_nodup

theorem linesSize_append (a b : List DialogueLine) :
    linesSize (a ++ b) = linesSize a + linesSize b := by
  simp [linesSize]

theorem inv_flush (cfg : ChunkerConfig) (st : ChunkerState)
    (h : ChunkerInv cfg st) (hne : st.current_lines ≠ []) :
    ChunkerInv cfg (flushChunk st) := by
  constructor <;> simp only [flushChunk]
  · simp [h.idx_eq]
  · simp only [List.map_append, List.length_append, List.map_cons,
      List.map_nil, List.length_cons, List.length_nil]
    rw [h.indices, h.idx_eq, List.range_succ]
  · intro c hc
    rcases List.mem_append.mp hc with hc | hc
    · exact h.emitted_nonempty c hc
    · simp at hc; subst hc; exact hne
  · intro c hc
    rcases List.mem_append.mp hc with hc | hc
    · exact h.emitted_size c hc
    · simp at hc; subst hc
      intro hlen
      simpa [chunkBytes, ← h.size_eq] using h.buf_size hlen
  · intro c hc
    rcases List.mem_append.mp hc with hc | hc
    · exact h.emitted_spk_nonempty c hc
    · simp at hc; subst hc
      intro hsp; exact hne (h.buf_spk_empty_iff.mp hsp)
  · intro c hc
    rcases List.mem_append.mp hc with hc | hc
    · exact h.emitted_spk_card c hc
    · simp at hc; subst hc; exact h.buf_spk_card
  · intro c hc
    rcases List.mem_append.mp hc with hc | hc
    · exact h.emitted_spk_nodup c hc
    · simp at hc; subst hc; exact h.buf_spk_nodup
  · simp [linesSize]
  · intro hlen; simp at hlen
  · simp
  · simp

theorem inv_addLine_empty (cfg : ChunkerConfig) (st : ChunkerState)
    (line : DialogueLine) (hs : 1 ≤ cfg.max_speakers) (h : ChunkerInv cfg st)
    (he : st.current_lines = []) : ChunkerInv cfg (addLine st line) := by
  have hsp : st.current_speakers = [] := h.buf_spk_empty_iff.mpr he
  constructor <;> simp only [addLine]
  · exact h.idx_eq
  · exact h.indices
  · exact h.emitted_nonempty
  · exact h.emitted_size
  · exact h.emitted_spk_nonempty
  · exact h.emitted_spk_card
  · exact h.emitted_spk_nodup
  · rw [h.size_eq, linesSize_append]; simp [linesSize]
  · rw [he]; intro hlen; simp at hlen
  · rw [hsp, he]; simp
  · rw [hsp]; simpa using hs
  · rw [hsp]; simp

theorem inv_addLine_noflush (cfg : ChunkerConfig) (st : ChunkerState)
    (line : DialogueLine) (h : ChunkerInv cfg st)
    (hn : ¬ needsNewChunk cfg st line) : ChunkerInv cfg (addLine st line) := by
  unfold needsNewChunk at hn
  push_neg at hn
  obtain ⟨-, hspk, hsize⟩ := hn
  constructor <;> simp only [addLine]
  · exact h.idx_eq
  · exact h.indices
  · exact h.emitted_nonempty
  · exact h.emitted_size
  · exact h.emitted_spk_nonempty
  · exact h.emitted_spk_card
  · exact h.emitted_spk_nodup
  · rw [h.size_eq, linesSize_append]; simp [linesSize]
  · intro hlen
    have hne : st.current_lines ≠ [] := by
      intro he; rw [he] at hlen; simp at hlen
    by_contra hgt
    push_neg at hgt
    exact hne (hsize hgt)
  · constructor
    · intro hq
      by_cases hc : st.current_speakers.contains line.speaker = true
      · rw [if_pos hc] at hq
        rw [hq] at hc; simp [List.contains] at hc
      · rw [if_neg hc] at hq
        exact absurd hq (by simp)
    · intro hq; simp at hq
  · by_cases hc : st.current_speakers.contains line.speaker = true
    · rw [if_pos hc]; exact h.buf_spk_card
    · rw [if_neg hc]
      have hlt : st.current_speakers.length < cfg.max_speakers := by
        have := hspk (by simpa using hc)
        omega
      simpa using hlt
  · by_cases hc : st.current_speakers.contains line.speaker = true
    · rw [if_pos hc]; exact h.buf_spk_nodup
    · rw [if_neg hc]
      have hmem : line.speaker ∉ st.current_speakers := by
        intro hm
        exact hc (List.elem_iff.mpr hm)
      simp [List.nodup_append, h.buf_spk_nodup, hmem]

theorem needs_imp_nonempty (cfg : ChunkerConfig) (st : ChunkerState)
    (line : DialogueLine) (hs : 1 ≤ cfg.max_speakers) (h : ChunkerInv cfg st)
    (hn : needsNewChunk cfg st line) : st.current_lines ≠ [] := by
  intro he
  have hsp : st.current_speakers = [] := h.buf_spk_empty_iff.mpr he
  rcases hn with ⟨-, hne⟩ | ⟨-, hlen⟩ | ⟨-, hne⟩
  · exact hne he
  · rw [hsp] at hlen; simp at hlen; omega
  · exact hne he

theorem inv_chunkStep (cfg : ChunkerConfig) (st : ChunkerState)
    (line : DialogueLine) (hs : 1 ≤ cfg.max_speakers) (h : ChunkerInv cfg st) :
    ChunkerInv cfg (chunkStep cfg st line) := by
  unfold chunkStep
  by_cases hn : needsNewChunk cfg st line
  · rw [if_pos hn]
    apply inv_markChapter
    apply inv_addLine_empty cfg _ line hs
      (inv_flush cfg st h (needs_imp_nonempty cfg st line hs h hn))
    rfl
  · rw [if_neg hn]
    exact inv_markChapter _ _ _ (inv_addLine_noflush cfg st line h hn)

theorem inv_init (cfg : ChunkerConfig) : ChunkerInv cfg chunkerInit := by
  constructor <;> simp [chunkerInit, linesSize]

theorem inv_foldl (cfg : ChunkerConfig) (hs : 1 ≤ cfg.max_speakers) :
    ∀ (lines : List DialogueLine) (st : ChunkerState), ChunkerInv cfg st →
      ChunkerInv cfg (lines.foldl (chunkStep cfg) st)
  | [], _, h => h
  | l :: ls, st, h =>
    inv_foldl cfg hs ls (chunkStep cfg st l) (inv_chunkStep cfg st l hs h)

theorem joinLines_append (a b : List Chunk) :
    joinLines (a ++ b) = joinLines a ++ joinLines b := by
  simp [joinLines]

theorem emitted_chunkStep (cfg : ChunkerConfig) (st : ChunkerState)
    (line : DialogueLine) :
    joinLines (chunkStep cfg st line).chunks ++
      (chunkStep cfg st line).current_lines =
    (joinLines st.chunks ++ st.current_lines) ++ [line] := by
  unfold chunkStep
  by_cases hn : needsNewChunk cfg st line
  · rw [if_pos hn]
    simp [markChapter_chunks, markChapter_current_lines, addLine, flushChunk,
      joinLines_append, joinLines]
  · rw [if_neg hn]
    simp [markChapter_chunks, markChapter_current_lines, addLine]

theorem emitted_foldl (cfg : ChunkerConfig) :
    ∀ (lines : List DialogueLine) (st : ChunkerState),
      joinLines (lines.foldl (chunkStep cfg) st).chunks ++
        (lines.foldl (chunkStep cfg) st).current_lines =
      (joinLines st.chunks ++ st.current_lines) ++ lines
  | [], st => by simp
  | l :: ls, st => by
    rw [List.foldl_cons, emitted_foldl cfg ls (chunkStep cfg st l),
      emitted_chunkStep]
    simp

theorem chunk_join (cfg : ChunkerConfig) (lines : List DialogueLine) :
    joinLines (TextChunker.chunk cfg lines) = lines := by
  unfold TextChunker.chunk
  by_cases h0 : lines = []
  · rw [if_pos h0, h0]; simp [joinLines]
  · rw [if_neg h0]
    have hem : joinLines (lines.foldl (chunkStep cfg) chunkerInit).chunks ++
        (lines.foldl (chunkStep cfg) chunkerInit).current_lines = lines := by
      rw [emitted_foldl cfg lines chunkerInit]
      simp [chunkerInit, joinLines]
    by_cases hc : (lines.foldl (chunkStep cfg) chunkerInit).current_lines = []
    · rw [if_pos hc]
      rw [hc, List.append_nil] at hem
      exact hem
    · rw [if_neg hc]
      rw [joinLines_append]
      simpa [joinLines] using hem

theorem chunk_mem_inv (cfg : ChunkerConfig) (lines : List DialogueLine)
    (hs : 1 ≤ cfg.max_speakers) :
    ∀ c ∈ TextChunker.chunk cfg lines,
      c.lines ≠ [] ∧ (2 ≤ c.lines.length → chunkBytes c ≤ cfg.max_bytes) ∧
      c.speakers ≠ [] ∧ c.speakers.length ≤ cfg.max_speakers ∧
      c.speakers.Nodup := by
  intro c hc
  unfold TextChunker.chunk at hc
  by_cases h0 : lines = []
  · rw [if_pos h0] at hc; simp at hc
  · rw [if_neg h0] at hc
    have hinv := inv_foldl cfg hs lines chunkerInit (inv_init cfg)
    set st := lines.foldl (chunkStep cfg) chunkerInit with hst
    by_cases hcur : st.current_lines = []
    · rw [if_pos hcur] at hc
      exact ⟨hinv.emitted_nonempty c hc, hinv.emitted_size c hc,
        hinv.emitted_spk_nonempty c hc, hinv.emitted_spk_card c hc,
        hinv.emitted_spk_nodup c hc⟩
    · rw [if_neg hcur] at hc
      rcases List.mem_append.mp hc with hc | hc
      · exact ⟨hinv.emitted_nonempty c hc, hinv.emitted_size c hc,
          hinv.emitted_spk_nonempty c hc, hinv.emitted_spk_card c hc,
          hinv.emitted_spk_nodup c hc⟩
      · simp at hc; subst hc
        refine ⟨hcur, ?_, ?_, hinv.buf_spk_card, hinv.buf_spk_nodup⟩
        · intro hlen
          simpa [chunkBytes, ← hinv.size_eq] using hinv.buf_size hlen
        · intro hsp; exact hcur (hinv.buf_spk_empty_iff.mp hsp)

theorem chunk_indices (cfg : ChunkerConfig) (lines : List DialogueLine)
    (hs : 1 ≤ cfg.max_speakers) :
    (TextChunker.chunk cfg lines).map Chunk.index =
      List.range (TextChunker.chunk cfg lines).length := by
  unfold TextChunker.chunk
  by_cases h0 : lines = []
  · rw [if_pos h0]; simp
  · rw [if_neg h0]
    have hinv := inv_foldl cfg hs lines chunkerInit (inv_init cfg)
    set st := lines.foldl (chunkStep cfg) chunkerInit with hst
    by_cases hcur : st.current_lines = []
    · rw [if_pos hcur]; exact hinv.indices
    · rw [if_neg hcur]
      simp only [List.map_append, List.length_append, List.map_cons,
        List.map_nil, List.length_cons, List.length_nil]
      rw [hinv.indices, hinv.idx_eq, List.range_succ]

example :
    (is_chapter_marker "Chapter 1").1 = true ∧
    (is_chapter_marker "CHAPTER iv").1 = true ∧
    (is_chapter_marker "part 2").1 = true ∧
    (is_chapter_marker "## Heading").1 = true ∧
    (is_chapter_marker "  --- ").1 = true ∧
    (is_chapter_marker "####x").1 = false ∧
    (is_chapter_marker "Hello, how are you?").1 = false ∧
    (is_chapter_marker "Chapter One: The Fall").1 = true := by decide

example :
    TextChunker.chunk ⟨3500, 2⟩
      [⟨"Alice", "Hello"⟩, ⟨"Bob", "Hi"⟩] =
    [⟨0, [⟨"Alice", "Hello"⟩, ⟨"Bob", "Hi"⟩], ["Alice", "Bob"], false, none⟩] := by
  decide

/-! ### Claim theorems: the Segmenter -/

theorem lineSize_le_chunkBytes (c : Chunk) (l : DialogueLine)
    (hl : l ∈ c.lines) : lineSize l ≤ chunkBytes c := by
  unfold chunkBytes linesSize
  exact List.single_le_sum (fun y _ => Nat.zero_le y) _
    (List.mem_map_of_mem lineSize hl)

/-- C1: for every input and every configuration with `max_bytes > 0` and
`max_speakers ≥ 1`: (i) every emitted chunk holding two or more lines has
serialized byte size (per-line speaker + text UTF-8 bytes plus the fixed
2-byte separator allowance) at most `max_bytes`; (ii) the emitted chunks'
lines concatenate to the input, so no line is ever discarded or split
across chunks; (iii) a line whose serialized size alone exceeds
`max_bytes` always forms a chunk by itself. -/
theorem chunker_byte_ceiling (cfg : ChunkerConfig) (lines : List DialogueLine)
    (_hb : 0 < cfg.max_bytes) (hs : 1 ≤ cfg.max_speakers) :
    (∀ c ∈ TextChunker.chunk cfg lines,
       2 ≤ c.lines.length → chunkBytes c ≤ cfg.max_bytes) ∧
    joinLines (TextChunker.chunk cfg lines) = lines ∧
    (∀ c ∈ TextChunker.chunk cfg lines, ∀ l ∈ c.lines,
       cfg.max_bytes < lineSize l → c.lines = [l]) := by
  refine ⟨fun c hc => (chunk_mem_inv cfg lines hs c hc).2.1,
    chunk_join cfg lines, ?_⟩
  intro c hc l hl hbig
  obtain ⟨hne, hsize, -⟩ := chunk_mem_inv cfg lines hs c hc
  by_cases hlen : 2 ≤ c.lines.length
  · exfalso
    have hle := lineSize_le_chunkBytes c l hl
    have := hsize hlen
    omega
  · have h1 : c.lines.length = 1 := by
      have h0 : 0 < c.lines.length := List.length_pos.mpr hne
      omega
    obtain ⟨a, ha⟩ := List.length_eq_one.mp h1
    rw [ha] at hl ⊢
    simp at hl
    rw [hl]

/-- Witness for C1 at the concrete configuration `wcfg` and input
`witnessLines`. -/
theorem chunker_byte_ceiling_witness :
    0 < wcfg.max_bytes ∧ 1 ≤ wcfg.max_speakers ∧
    ((∀ c ∈ TextChunker.chunk wcfg witnessLines,
        2 ≤ c.lines.length → chunkBytes c ≤ wcfg.max_bytes) ∧
     joinLines (TextChunker.chunk wcfg witnessLines) = witnessLines ∧
     (∀ c ∈ TextChunker.chunk wcfg witnessLines, ∀ l ∈ c.lines,
        wcfg.max_bytes < lineSize l → c.lines = [l])) :=
  ⟨by decide, by decide,
    chunker_byte_ceiling wcfg witnessLines (by decide) (by decide)⟩

/-- C2: for every input and every configuration with `max_speakers ≥ 1`,
no emitted chunk has an empty line list, the emitted indices are exactly
`0..n-1` in emission order, and the empty input yields the empty chunk
sequence. -/
theorem chunker_no_empty_segment (cfg : ChunkerConfig)
    (lines : List DialogueLine) (hs : 1 ≤ cfg.max_speakers) :
    (∀ c ∈ TextChunker.chunk cfg lines, c.lines ≠ []) ∧
    (TextChunker.chunk cfg lines).map Chunk.index =
      List.range (TextChunker.chunk cfg lines).length ∧
    TextChunker.chunk cfg [] = [] := by
  refine ⟨fun c hc => (chunk_mem_inv cfg lines hs c hc).1,
    chunk_indices cfg lines hs, by simp [TextChunker.chunk]⟩

/-- Witness for C2 at the concrete configuration `wcfg` and input
`witnessLines`. -/
theorem chunker_no_empty_segment_witness :
    1 ≤ wcfg.max_speakers ∧
    ((∀ c ∈ TextChunker.chunk wcfg witnessLines, c.lines ≠ []) ∧
     (TextChunker.chunk wcfg witnessLines).map Chunk.index =
       List.range (TextChunker.chunk wcfg witnessLines).length ∧
     TextChunker.chunk wcfg [] = []) :=
  ⟨by decide, chunker_no_empty_segment wcfg witnessLines (by decide)⟩

/-- C3: for every input and every configuration with `max_speakers ≥ 1`,
every emitted chunk's speaker set is nonempty, duplicate-free, and holds
at most `max_speakers` distinct speakers — single-line chunks included. -/
theorem chunker_speaker_ceiling (cfg : ChunkerConfig)
    (lines : List DialogueLine) (hs : 1 ≤ cfg.max_speakers) :
    ∀ c ∈ TextChunker.chunk cfg lines,
      c.speakers ≠ [] ∧ c.speakers.Nodup ∧
      c.speakers.length ≤ cfg.max_speakers := by
  intro c hc
  obtain ⟨-, -, h1, h2, h3⟩ := chunk_mem_inv cfg lines hs c hc
  exact ⟨h1, h3, h2⟩

/-- Witness for C3 at the concrete configuration `wcfg` and input
`witnessLines`. -/
theorem chunker_speaker_ceiling_witness :
    1 ≤ wcfg.max_speakers ∧
    (∀ c ∈ TextChunker.chunk wcfg witnessLines,
      c.speakers ≠ [] ∧ c.speakers.Nodup ∧
      c.speakers.length ≤ wcfg.max_speakers) :=
  ⟨by decide, chunker_speaker_ceiling wcfg witnessLines (by decide)⟩

/-! ### Claim theorems: chapter-marker detection -/

/-- C4 counterexample: the claim's characterization misses the source's
second pattern `^(chapter|part|section)\s+\w+:`.  On
`"Part One: The Fall"` the code detects a chapter marker while the
claim's three-pattern characterization does not, so "returns false for
every other line" is refuted. -/
theorem chapter_marker_claim_counterexample :
    (is_chapter_marker "Part One: The Fall").1 = true ∧
    claimChapterMarker "Part One: The Fall" = false := by decide

/-- C4 amended: chapter-marker detection returns true exactly when the
trimmed text matches one of the claim's three patterns OR the
keyword-then-word-then-colon pattern (`chapter/part/section` + whitespace
+ word characters + `:`), case-insensitively. -/
theorem chapter_marker_characterization (s : String) :
    (is_chapter_marker s).1 =
      (claimChapterMarker s || patKeywordWordColon (pyStrip s).data) := by
  cases h1 : patKeywordNumeral (pyStrip s).data <;>
  cases h2 : patKeywordWordColon (pyStrip s).data <;>
  cases h3 : patMarkdownHeading (pyStrip s).data <;>
  cases h4 : patDivider (pyStrip s).data <;>
  simp [is_chapter_marker, claimChapterMarker, chapterPatternsMatch,
    h1, h2, h3, h4]

/-! ### Claim theorems: the specification's worked segmenter example -/

set_option maxRecDepth 4000 in
/-- C5 counterexample: each line serializes to 100 + 1 + 2 = 103 bytes,
so every pair of lines (206 bytes) exceeds `max_bytes = 150` and the
chunker splits at every line: the example input yields 3 segments, not
the 2 the specification asserts. -/
theorem chunk_example_counterexample :
    (TextChunker.chunk ⟨150, 2⟩ exampleLines).length ≠ 2 := by decide

set_option maxRecDepth 4000 in
/-- C5 amended: the example input with `max_bytes = 150` yields exactly 3
segments, each holding a single 103-byte line (consistently with the
invariant that only single-line segments may exceed the ceiling — here no
two 103-byte lines fit under 150 together). -/
theorem chunk_example_count :
    (TextChunker.chunk ⟨150, 2⟩ exampleLines).length = 3 ∧
    ∀ c ∈ TextChunker.chunk ⟨150, 2⟩ exampleLines,
      c.lines.length = 1 ∧ chunkBytes c = 103 := by decide

/-! ### Claim theorems: payload validation at the provider boundary -/

theorem utf8ByteSize_cons (c : Char) (cs : List Char) :
    String.utf8ByteSize ⟨c :: cs⟩ = String.utf8ByteSize ⟨cs⟩ + c.utf8Size := by
  simp [String.utf8ByteSize, String.utf8ByteSize.go]

theorem utf8ByteSize_replicate_a (n : Nat) :
    (String.mk (List.replicate n 'a')).utf8ByteSize = n := by
  induction n with
  | zero => rfl
  | succ k ih =>
    rw [List.replicate_succ, utf8ByteSize_cons, ih]
    rfl

theorem utf8ByteSize_append (s t : String) :
    (s ++ t).utf8ByteSize = s.utf8ByteSize + t.utf8ByteSize := by
  cases s with
  | mk d1 =>
    cases t with
    | mk d2 =>
      show String.utf8ByteSize ⟨d1 ++ d2⟩ = _
      induction d1 with
      | nil => simp [String.utf8ByteSize, String.utf8ByteSize.go]
      | cons c cs ih =>
        simp only [List.cons_append, utf8ByteSize_cons, ih]
        omega

/-- C6 counterexample: the ElevenLabs provider's
`generate_single_speaker` performs no payload-size validation: on a
5001-byte text (over its declared 5000-byte maximum) it dispatches the
network call instead of failing fast. -/
theorem payload_validation_counterexample :
    elevenLabsMaxTextLength < bigText5001.utf8ByteSize ∧
    elevenLabsGenerateSingleSpeaker bigText5001 none =
      DispatchOutcome.networkCall bigText5001.utf8ByteSize ∧
    elevenLabsGenerateSingleSpeaker bigText5001 none ≠
      DispatchOutcome.rejectedTooLarge := by
  refine ⟨?_, rfl, by simp [elevenLabsGenerateSingleSpeaker]⟩
  unfold bigText5001 elevenLabsMaxTextLength
  rw [utf8ByteSize_replicate_a]
  omega

/-- C6 amended: the Google provider rejects oversized payloads before
dispatching (both single-speaker, on the raw text, and multi-speaker, on
the joined transcript), while the ElevenLabs provider performs no size
validation and always dispatches a network call. -/
theorem payload_validation_amended :
    (∀ (text : String) (style : Option String),
      googleMaxTextLength < text.utf8ByteSize →
        googleGenerateSingleSpeaker text style =
          DispatchOutcome.rejectedTooLarge) ∧
    (∀ (dialogue : List (String × String × String)) (style : Option String),
      dialogue ≠ [] → (distinctSpeakers dialogue).length ≤ 2 →
      googleMaxTextLength < (dialogueText dialogue).utf8ByteSize →
        googleGenerateMultiSpeaker dialogue style =
          DispatchOutcome.rejectedTooLarge) ∧
    (∀ (text : String) (style : Option String),
      ∃ n, elevenLabsGenerateSingleSpeaker text style =
        DispatchOutcome.networkCall n) := by
  refine ⟨?_, ?_, ?_⟩
  · intro text style h
    unfold googleGenerateSingleSpeaker
    rw [if_pos h]
  · intro d style h1 h2 h3
    unfold googleGenerateMultiSpeaker
    rw [if_neg h1, if_neg (by omega), if_pos h3]
  · intro text style
    exact ⟨_, rfl⟩

/-- Witness for C6 amended, at a 4001-byte text and a one-line dialogue
with a 4004-byte transcript. -/
theorem payload_validation_amended_witness :
    googleMaxTextLength < bigText4001.utf8ByteSize ∧
    wDialogue ≠ [] ∧ (distinctSpeakers wDialogue).length ≤ 2 ∧
    googleMaxTextLength < (dialogueText wDialogue).utf8ByteSize ∧
    googleGenerateSingleSpeaker bigText4001 none =
      DispatchOutcome.rejectedTooLarge ∧
    googleGenerateMultiSpeaker wDialogue none =
      DispatchOutcome.rejectedTooLarge ∧
    ∃ n, elevenLabsGenerateSingleSpeaker "hello" none =
      DispatchOutcome.networkCall n := by
  have h1 : googleMaxTextLength < bigText4001.utf8ByteSize := by
    unfold bigText4001 googleMaxTextLength
    rw [utf8ByteSize_replicate_a]
    omega
  have hdt : dialogueText wDialogue = "A: " ++ bigText4001 := rfl
  have h4 : googleMaxTextLength < (dialogueText wDialogue).utf8ByteSize := by
    rw [hdt, utf8ByteSize_append]
    have hb : bigText4001.utf8ByteSize = 4001 := by
      unfold bigText4001; rw [utf8ByteSize_replicate_a]
    rw [hb]
    unfold googleMaxTextLength
    omega
  have h2 : wDialogue ≠ [] := by simp [wDialogue]
  have h3 : (distinctSpeakers wDialogue).length ≤ 2 := by
    simp [wDialogue, distinctSpeakers]
  exact ⟨h1, h2, h3, h4,
    payload_validation_amended.1 bigText4001 none h1,
    payload_validation_amended.2.1 wDialogue none h2 h3 h4,
    payload_validation_amended.2.2 "hello" none⟩

/-! ### Claim theorems: the retry wrapper -/

/-- C7 counterexample: `retry_with_backoff` catches bare `Exception`, so
an authentication failure — which the claim says must propagate
immediately without any retry — is attempted 4 times (3 retries) with
sleeps 1s, 2s, 4s before the last exception is re-raised. -/
theorem retry_policy_counterexample :
    (retry_with_backoff 3 1 30 (constFail ApiError.auth)).1 = 4 ∧
    (retry_with_backoff 3 1 30 (constFail ApiError.auth)).1 ≠ 1 ∧
    (retry_with_backoff 3 1 30 (constFail ApiError.auth)).2.1 = [1, 2, 4] ∧
    (retry_with_backoff 3 1 30 (constFail ApiError.auth)).2.2 =
      Except.error ApiError.auth :=
  ⟨rfl, by decide, by decide, rfl⟩

theorem retryLoop_constFail (e : ApiError) (base maxd : Nat) :
    ∀ (r attempt : Nat),
      retryLoop (constFail e) base maxd attempt r =
        (r + 1,
          (List.range r).map (fun i => backoffDelay base maxd (attempt + i)),
          Except.error e)
  | 0, attempt => by simp [retryLoop, constFail]
  | r + 1, attempt => by
    have ih := retryLoop_constFail e base maxd r (attempt + 1)
    simp only [retryLoop, constFail, ih, Prod.mk.injEq]
    refine ⟨trivial, ?_, trivial⟩
    rw [List.range_succ_eq_map, List.map_cons, List.map_map]
    simp only [List.cons.injEq]
    refine ⟨by rw [Nat.add_zero], ?_⟩
    apply List.map_congr_left
    intro a _
    simp only [Function.comp_apply]
    congr 1
    omega

/-- C7 amended: every exception raised by the wrapped call — transient or
not — is retried; a call that fails on all attempts is invoked exactly
`max_retries + 1` times with exponentially growing sleeps
`min(base·2^attempt, max_delay)` between attempts, and the last exception
then propagates; every sleep is capped by `max_delay`; a successful
attempt returns at once.  (Payload-size validation errors are raised
before the wrapped call and therefore never reach the retry wrapper.) -/
theorem retry_policy_amended :
    (∀ (e : ApiError) (n base maxd : Nat),
      retry_with_backoff n base maxd (constFail e) =
        (n + 1, (List.range n).map (backoffDelay base maxd),
          Except.error e)) ∧
    (∀ base maxd attempt, backoffDelay base maxd attempt ≤ maxd) ∧
    (∀ (a : Unit) (n base maxd : Nat),
      retry_with_backoff n base maxd (fun _ => Except.ok a) =
        (1, [], Except.ok a)) := by
  refine ⟨?_, ?_, ?_⟩
  · intro e n base maxd
    have hmap : (List.range n).map (fun i => backoffDelay base maxd (0 + i)) =
        (List.range n).map (backoffDelay base maxd) :=
      List.map_congr_left (fun a _ => by rw [Nat.zero_add])
    rw [retry_with_backoff, retryLoop_constFail, hmap]
  · intro base maxd attempt
    exact Nat.min_le_right _ _
  · intro a n base maxd
    cases n <;> simp [retry_with_backoff, retryLoop]

/-! ### Claim theorems: the streaming generation loop -/

theorem generateStep_error_spec (synth : Chunk → Except String (List Int))
    (p cp iv total : Nat) (st : GenState) (i : Nat) (c : Chunk) (msg : String)
    (h : synth c = .error msg) :
    generateStep synth p cp iv total st i c =
      .error { st with
        synthCalls := st.synthCalls ++ [i],
        errors := st.errors ++ [(i, msg)],
        checkpoint := some ⟨i, total⟩,
        saves := st.saves ++ [⟨i, total⟩] } := by
  simp [generateStep, saveState, h]

theorem generateStep_ok_spec (synth : Chunk → Except String (List Int))
    (p cp iv total : Nat) (st : GenState) (i : Nat) (c : Chunk)
    (st2 : GenState) (h : generateStep synth p cp iv total st i c = .ok st2) :
    st2.synthCalls = st.synthCalls ++ [i] ∧
    ∃ tail, outputData st2 = outputData st ++ tail := by
  unfold generateStep at h
  cases hsy : synth c with
  | error msg => rw [hsy] at h; exact absurd h (by simp)
  | ok audio =>
    rw [hsy] at h
    dsimp only at h
    split at h <;> (injection h with h; subst h) <;>
      refine ⟨rfl,
        (if 0 < i then
          silenceMs (if c.is_chapter_start = true then cp else p) ++ audio
        else audio), ?_⟩ <;>
      cases ho : st.output <;>
      simp [outputData, appendAudio, appendAudioFile, saveState, ho]

theorem generateLoop_error_spec (synth : Chunk → Except String (List Int))
    (p cp iv total : Nat) :
    ∀ (pending : List (Nat × Chunk)) (st stF : GenState),
      generateLoop synth p cp iv total st pending = .error stF →
      ∃ i c msg, (i, c) ∈ pending ∧ synth c = Except.error msg ∧
        stF.errors.getLast? = some (i, msg) ∧
        stF.checkpoint = some ⟨i, total⟩ ∧
        stF.saves.getLast? = some ⟨i, total⟩
  | [], st, stF => by
    intro h
    exact absurd h (by simp [generateLoop])
  | (i, c) :: rest, st, stF => by
    intro h
    unfold generateLoop at h
    cases hstep : generateStep synth p cp iv total st i c with
    | error st2 =>
      rw [hstep] at h
      dsimp only at h
      injection h with h2
      subst h2
      cases hsy : synth c with
      | ok audio =>
        exfalso
        unfold generateStep at hstep
        rw [hsy] at hstep
        dsimp only at hstep
        split at hstep <;> exact absurd hstep (by simp)
      | error msg =>
        rw [generateStep_error_spec synth p cp iv total st i c msg hsy]
          at hstep
        injection hstep with h3
        rw [← h3]
        refine ⟨i, c, msg, by simp, hsy, ?_, ?_, ?_⟩ <;>
          simp [List.getLast?_append_cons]
    | ok st2 =>
      rw [hstep] at h
      dsimp only at h
      obtain ⟨i2, c2, msg, hmem, hsy, h1, h2, h3⟩ :=
        generateLoop_error_spec synth p cp iv total rest st2 stF h
      exact ⟨i2, c2, msg, List.mem_cons_of_mem _ hmem, hsy, h1, h2, h3⟩

theorem generateLoop_ok_spec (synth : Chunk → Except String (List Int))
    (p cp iv total : Nat) :
    ∀ (pending : List (Nat × Chunk)) (st stF : GenState),
      generateLoop synth p cp iv total st pending = .ok stF →
      stF.synthCalls = st.synthCalls ++ pending.map Prod.fst ∧
      ∃ tail, outputData stF = outputData st ++ tail
  | [], st, stF => by
    intro h
    unfold generateLoop at h
    injection h with h2
    subst h2
    exact ⟨by simp, [], by simp⟩
  | (i, c) :: rest, st, stF => by
    intro h
    unfold generateLoop at h
    cases hstep : generateStep synth p cp iv total st i c with
    | error st2 => rw [hstep] at h; exact absurd h (by simp)
    | ok st2 =>
      rw [hstep] at h
      dsimp only at h
      obtain ⟨hcalls, tail1, hout⟩ :=
        generateStep_ok_spec synth p cp iv total st i c st2 hstep
      obtain ⟨hcalls2, tail2, hout2⟩ :=
        generateLoop_ok_spec synth p cp iv total rest st2 stF h
      refine ⟨?_, tail1 ++ tail2, ?_⟩
      · rw [hcalls2, hcalls]; simp
      · rw [hout2, hout]; simp

/-- C8: whenever `generate` propagates a loop exception (result
`.failed`), the propagated state already has the failing segment's index
and message as the LAST entry of the error log, and the LAST checkpoint
write (also the checkpoint file's content) records `completed = i` for
that same failing index `i` — i.e. the error was logged and a checkpoint
forced before the exception escaped, so the run is resumable. -/
theorem error_checkpoint_before_propagate
    (synth : Chunk → Except String (List Int)) (p cp iv : Nat)
    (chunks : List Chunk) (resume : Bool) (st0 stF : GenState)
    (h : StreamingGenerator.generate synth p cp iv chunks resume st0 =
      .failed stF) :
    ∃ i c msg, chunks[i]? = some c ∧ synth c = Except.error msg ∧
      stF.errors.getLast? = some (i, msg) ∧
      stF.checkpoint = some ⟨i, chunks.length⟩ ∧
      stF.saves.getLast? = some ⟨i, chunks.length⟩ := by
  unfold StreamingGenerator.generate at h
  by_cases h0 : chunks = []
  · rw [if_pos h0] at h; exact absurd h (by simp)
  · rw [if_neg h0] at h
    cases hl : generateLoop synth p cp iv chunks.length
        (initialState resume st0)
        ((chunks.drop (resumeStart resume st0)).enumFrom
          (resumeStart resume st0)) with
    | ok st2 => rw [hl] at h; exact absurd h (by simp)
    | error st2 =>
      rw [hl] at h
      dsimp only at h
      injection h with h2
      subst h2
      obtain ⟨i, c, msg, hmem, hsy, h1, h2, h3⟩ :=
        generateLoop_error_spec synth p cp iv chunks.length _ _ _ hl
      obtain ⟨hle, hlt, hx⟩ := List.mem_enumFrom hmem
      refine ⟨i, c, msg, ?_, hsy, h1, h2, h3⟩
      have hb : i - resumeStart resume st0 <
          (chunks.drop (resumeStart resume st0)).length := by
        simp only [List.length_drop] at hlt ⊢
        omega
      have hsome :
          (chunks.drop (resumeStart resume st0))[i - resumeStart resume st0]? =
            some c := by
        rw [List.getElem?_eq_getElem hb]
        exact congrArg some hx.symm
      rw [List.getElem?_drop] at hsome
      have heq : resumeStart resume st0 + (i - resumeStart resume st0) = i := by
        omega
      rwa [heq] at hsome

/-- Witness for C8: a fresh 2-chunk run whose second chunk's synthesis
fails; the propagated state logs `(1, "boom")` and carries a forced
checkpoint recording 1 completed chunk. -/
theorem error_checkpoint_before_propagate_witness :
    StreamingGenerator.generate synth8 2 3 5 chunks9 false genInit =
      GenResult.failed stF8 ∧
    (∃ i c msg, chunks9[i]? = some c ∧ synth8 c = Except.error msg ∧
      stF8.errors.getLast? = some (i, msg) ∧
      stF8.checkpoint = some ⟨i, chunks9.length⟩ ∧
      stF8.saves.getLast? = some ⟨i, chunks9.length⟩) :=
  ⟨by decide,
    error_checkpoint_before_propagate synth8 2 3 5 chunks9 false genInit stF8
      (by decide)⟩

/-- C9: (i) when resume is requested and a checkpoint records `k`
completed segments (with `k ≤ n`), a completed run invokes synthesis
exactly for segments `k..n-1` — never re-invoking it for `0..k-1` — and
the pre-existing output file content is extended in place (it is a prefix
of the final content); (ii) resume with no checkpoint behaves exactly as
a fresh run; (iii) a fresh run first deletes any pre-existing output
file. -/
theorem resume_semantics (synth : Chunk → Except String (List Int))
    (p cp iv : Nat) (chunks : List Chunk) (st0 : GenState) (k t : Nat) :
    (st0.checkpoint = some ⟨k, t⟩ → k ≤ chunks.length →
      ∀ stF, StreamingGenerator.generate synth p cp iv chunks true st0 =
          .completed stF →
        stF.synthCalls = st0.synthCalls ++
          List.range' k (chunks.length - k) ∧
        (∃ tail, outputData stF = outputData st0 ++ tail)) ∧
    (st0.checkpoint = none →
      StreamingGenerator.generate synth p cp iv chunks true st0 =
        StreamingGenerator.generate synth p cp iv chunks false st0) ∧
    StreamingGenerator.generate synth p cp iv chunks false st0 =
      StreamingGenerator.generate synth p cp iv chunks false
        { st0 with output := none } := by
  refine ⟨?_, ?_, ?_⟩
  · intro hcp hk stF h
    have hrs : resumeStart true st0 = k := by simp [resumeStart, hcp]
    have his : initialState true st0 = st0 := by simp [initialState, hcp]
    unfold StreamingGenerator.generate at h
    by_cases h0 : chunks = []
    · rw [if_pos h0] at h; exact absurd h (by simp)
    · rw [if_neg h0, hrs, his] at h
      cases hl : generateLoop synth p cp iv chunks.length st0
          ((chunks.drop k).enumFrom k) with
      | error st2 => rw [hl] at h; exact absurd h (by simp)
      | ok st2 =>
        rw [hl] at h
        dsimp only at h
        injection h with h2
        subst h2
        obtain ⟨hcalls, tail, hout⟩ :=
          generateLoop_ok_spec synth p cp iv chunks.length _ st0 st2 hl
        constructor
        · show st2.synthCalls = _
          rw [hcalls, List.enumFrom_map_fst, List.length_drop]
        · exact ⟨tail, hout⟩
  · intro hcp
    unfold StreamingGenerator.generate
    simp [resumeStart, initialState, hcp]
  · rfl

/-- Witness for C9: resuming a 2-chunk run from a checkpoint recording 1
completed chunk synthesizes only chunk 1 and appends pause + audio after
the pre-existing file content; and on a state with no checkpoint, resume
equals fresh. -/
theorem resume_semantics_witness :
    st9.checkpoint = some ⟨1, 2⟩ ∧ 1 ≤ chunks9.length ∧
    StreamingGenerator.generate synth9 2 3 5 chunks9 true st9 =
      .completed stF9 ∧
    (stF9.synthCalls = st9.synthCalls ++
        List.range' 1 (chunks9.length - 1) ∧
      (∃ tail, outputData stF9 = outputData st9 ++ tail)) ∧
    genInit.checkpoint = none ∧
    StreamingGenerator.generate synth9 2 3 5 chunks9 true genInit =
      StreamingGenerator.generate synth9 2 3 5 chunks9 false genInit := by
  refine ⟨rfl, by decide, by decide, ?_, rfl,
    (resume_semantics synth9 2 3 5 chunks9 genInit 0 0).2.1 rfl⟩
  exact (resume_semantics synth9 2 3 5 chunks9 st9 1 2).1 rfl (by decide) stF9
    (by decide)

/-! ### Claim theorems: incrementality of the Assembler -/

theorem appendRun_go :
    ∀ (buffers : List (List Int)) (ex : List Int) (reads : List Nat),
      buffers.foldl
        (fun acc a =>
          let r := appendAudioFile acc.1 a
          (some r.1, acc.2 ++ [r.2]))
        (some ex, reads) =
      (some (ex ++ buffers.flatten),
        reads ++ (List.range buffers.length).map
          (fun k => ex.length + ((buffers.take k).map List.length).sum))
  | [], ex, reads => by simp
  | a :: bs, ex, reads => by
    rw [List.foldl_cons]
    show List.foldl
        (fun acc a =>
          let r := appendAudioFile acc.1 a
          (some r.1, acc.2 ++ [r.2]))
        (some (ex ++ a), reads ++ [ex.length]) bs =
      (some (ex ++ (a :: bs).flatten),
        reads ++ (List.range (a :: bs).length).map
          (fun k => ex.length + (((a :: bs).take k).map List.length).sum))
    rw [appendRun_go bs (ex ++ a) (reads ++ [ex.length])]
    simp only [Prod.mk.injEq]
    constructor
    · rw [List.flatten_cons, List.append_assoc]
    · rw [List.append_assoc]
      congr 1
      simp only [List.length_cons]
      rw [List.range_succ_eq_map, List.map_cons, List.map_map,
        List.singleton_append]
      simp only [List.cons.injEq]
      refine ⟨by simp, ?_⟩
      apply List.map_congr_left
      intro j _
      simp only [Function.comp_apply, List.take_succ_cons, List.map_cons,
        List.sum_cons, List.length_append]
      omega

set_option maxRecDepth 20000 in
/-- C10 counterexample: appending 101 one-sample buffers through
`_append_audio` reads back 0, 1, 2, …, 100 samples — the k-th append
loads the entire payload accumulated by the previous k-1 appends (the
last one reads all 100 samples of a 1-sample-per-chunk run), refuting
"the output file is grown per segment rather than rereading the whole
existing payload on each append". -/
theorem append_rereads_counterexample :
    (appendRun oneSampleBuffers).2 = List.range 101 ∧
    (appendRun oneSampleBuffers).2.getLast? = some 100 := by decide

/-- C10 amended: `_append_audio` is NOT incremental: after the creating
first append, every subsequent append reads back the entire existing
file and rewrites the whole combined content — over a run, the k-th
append reads exactly the total size of all previously appended buffers,
which grows with the accumulated audio instead of being bounded by a
multiple of the chunk size. -/
theorem append_rereads_whole_payload (buffers : List (List Int)) :
    (appendRun buffers).1 =
      (if buffers = [] then none else some buffers.flatten) ∧
    (appendRun buffers).2 =
      (List.range buffers.length).map
        (fun k => ((buffers.take k).map List.length).sum) := by
  cases buffers with
  | nil => simp [appendRun]
  | cons a bs =>
    unfold appendRun
    rw [List.foldl_cons]
    show (List.foldl
        (fun acc a =>
          let r := appendAudioFile acc.1 a
          (some r.1, acc.2 ++ [r.2]))
        (some a, [0]) bs).1 =
      (if a :: bs = [] then none else some (a :: bs).flatten) ∧
      (List.foldl
        (fun acc a =>
          let r := appendAudioFile acc.1 a
          (some r.1, acc.2 ++ [r.2]))
        (some a, [0]) bs).2 =
      (List.range (a :: bs).length).map
        (fun k => (((a :: bs).take k).map List.length).sum)
    rw [appendRun_go bs a [0]]
    refine ⟨by simp, ?_⟩
    dsimp only
    simp only [List.length_cons]
    rw [List.range_succ_eq_map, List.map_cons, List.map_map,
      List.singleton_append]
    simp only [List.cons.injEq]
    refine ⟨by simp, ?_⟩
    apply List.map_congr_left
    intro j _
    simp only [Function.comp_apply, List.take_succ_cons, List.map_cons,
      List.sum_cons]
